import Mathlib

/-!
Verification of the telegram-cf-bot upload intake pipeline.

This file shallowly embeds the Go sources of the repository
(`internal/config/config.go`, `internal/validator/validator.go`,
`internal/cloudflare` upload client, `internal/bot/bot.go`) as executable
Lean definitions, and proves the spec's claims about them.

External effects (disk persistence, HTTP transport, the image decoding
library, the EXIF library, the system clock and the random source) are
modelled as oracle inputs: a payload record carries the byte length of the
image together with the results the decoding primitives give on those
bytes, and the pipeline environment carries the results of the network
calls.  The messaging transport (sending and editing chat messages) is
abstracted to the outcome values the handlers produce.
-/

/-! ## Constants (internal/constants/constants.go) -/

def MaxImageDimension : Nat := 12000

def MaxImageArea : Nat := 100 * 1000 * 1000

def MaxAnimatedArea : Nat := 50 * 1000 * 1000

def MaxFileSizeBytes : Nat := 10 * 1024 * 1024

def MaxMetadataSizeBytes : Nat := 1024

/-! ## Error model (internal/errors/errors.go)

Go's package-level error values relevant to the roster operations, plus the
formatted message carried by `AppError`. -/

inductive ErrType where
  | invalidConfig
  | userAlreadyExists
  | userNotFound
  deriving DecidableEq, Repr

structure AppError where
  errType : ErrType
  message : String
  deriving DecidableEq, Repr

/-! ## Configuration and the authorization roster (internal/config/config.go)

`Config.Save` writes the YAML file to disk; disk success or failure is an
oracle boolean `saveOk` passed to each mutating operation.  The Go methods
mutate the receiver in place; here each operation returns the new in-memory
configuration together with the returned error (`none` = nil error). -/

structure Config where
  adminID : Int
  authorizedUsers : List Int
  deriving DecidableEq, Repr

def IsAuthorized (c : Config) (userID : Int) : Bool :=
  userID == c.adminID || c.authorizedUsers.contains userID

def IsAdmin (c : Config) (userID : Int) : Bool :=
  userID == c.adminID

def configSave (saveOk : Bool) : Option AppError :=
  if saveOk then none
  else some ⟨ErrType.invalidConfig, "failed to write config file"⟩

def AddAuthorizedUser (saveOk : Bool) (c : Config) (userID : Int) :
    Config × Option AppError :=
  if IsAuthorized c userID then
    (c, some ⟨ErrType.userAlreadyExists,
      "user " ++ toString userID ++ " is already authorized"⟩)
  else
    let c' := { c with authorizedUsers := c.authorizedUsers ++ [userID] }
    (c', configSave saveOk)

def removeFirst : List Int → Int → Option (List Int)
  | [], _ => none
  | x :: xs, userID =>
    if x == userID then some xs
    else
      match removeFirst xs userID with
      | none => none
      | some l => some (x :: l)

def RemoveAuthorizedUser (saveOk : Bool) (c : Config) (userID : Int) :
    Config × Option AppError :=
  if userID == c.adminID then
    (c, some ⟨ErrType.invalidConfig, "cannot remove admin user"⟩)
  else
    match removeFirst c.authorizedUsers userID with
    | none => (c, some ⟨ErrType.userNotFound,
        "user " ++ toString userID ++ " is not in authorized list"⟩)
    | some l => ({ c with authorizedUsers := l }, configSave saveOk)

/-! ## The pending-upload store (field pendingUploads of Bot, bot.go)

A Go `map[int64]string` accessed under `uploadMutex`; modelled as an
association list with map semantics: `mapSet` is assignment,
`mapGet` is lookup, `mapDel` is `delete`. -/

abbrev Pending := List (Int × String)

def mapGet : Pending → Int → Option String
  | [], _ => none
  | (k, v) :: t, key => if k == key then some v else mapGet t key

def mapSet : Pending → Int → String → Pending
  | [], key, v => [(key, v)]
  | (k, w) :: t, key, v =>
    if k == key then (key, v) :: t else (k, w) :: mapSet t key v

def mapDel : Pending → Int → Pending
  | [], _ => []
  | (k, v) :: t, key =>
    if k == key then mapDel t key else (k, v) :: mapDel t key

/-! ## Image payloads and the validator (internal/validator/validator.go)

`image.DecodeConfig` and `exif.Decode` are external library primitives; a
`Payload` packages the byte length of the image together with the results
those primitives give on exactly those bytes: `decoded` is the
`(format, width, height)` container metadata (or `none` when decoding
fails), `exifData` the EXIF fields (or `none` when `exif.Decode` fails). -/

structure ExifFields where
  cameraMake : Option String
  cameraModel : Option String
  dateTime : Option String
  deriving DecidableEq, Repr

structure Payload where
  length : Nat
  decoded : Option (String × Nat × Nat)
  exifData : Option ExifFields
  deriving DecidableEq, Repr

inductive MetaVal where
  | str (s : String)
  | int (n : Int)
  deriving DecidableEq, Repr

/-- Serialized length of `json.Marshal` on a string-keyed metadata mapping
(assuming, as holds for every value the validator produces, that no string
needs JSON escaping): `{"k":v,...}` with quoted string values and bare
integers; key order does not affect the length. -/
def jsonValLen : MetaVal → Nat
  | .str s => s.length + 2
  | .int n => (toString n).length

def metadataJSONLen (m : List (String × MetaVal)) : Nat :=
  2 + (m.map (fun kv => kv.1.length + 3 + jsonValLen kv.2)).sum +
    (m.length - 1)

structure VResult where
  isValid : Bool
  format : String
  width : Nat
  height : Nat
  size : Nat
  metadata : List (String × MetaVal)
  deriving DecidableEq, Repr

inductive ValErr where
  | tooLarge (size limit : Nat)
  | invalidFormat
  | tooBigDimension (width height : Nat)
  | tooBigArea (area limit : Nat)
  deriving DecidableEq, Repr

/-- Both the dimension gate and the area gate raise the Go error type
`ErrImageTooBig`. -/
def ValErr.isTooBig : ValErr → Bool
  | .tooBigDimension _ _ => true
  | .tooBigArea _ _ => true
  | _ => false

def optField (k : String) : Option String → List (String × MetaVal)
  | none => []
  | some s => [(k, MetaVal.str s)]

/-- EXIF metadata extraction (validator.go extractMetadata): starts from
`{format}`, and only for JPEG and only when `exif.Decode` succeeds adds the
camera make, camera model and capture timestamp fields that decode to
strings. -/
def extractMetadata (p : Payload) (format : String) :
    List (String × MetaVal) :=
  let base := [("format", MetaVal.str format)]
  if format == "jpeg" then
    match p.exifData with
    | none => base
    | some e =>
      base ++ optField "camera_make" e.cameraMake ++
        optField "camera_model" e.cameraModel ++
        optField "date_time" e.dateTime
  else base

/-- Validate (validator.go): byte-size gate, container decode, dimension
gate, area gate (with the smaller ceiling for GIF), metadata extraction and
the 1 KiB metadata guard, in exactly the source order. -/
def Validate (p : Payload) : Except ValErr VResult :=
  if p.length > MaxFileSizeBytes then
    Except.error (ValErr.tooLarge p.length MaxFileSizeBytes)
  else
    match p.decoded with
    | none => Except.error ValErr.invalidFormat
    | some (format, width, height) =>
      if width > MaxImageDimension || height > MaxImageDimension then
        Except.error (ValErr.tooBigDimension width height)
      else
        let area := width * height
        let maxArea :=
          if format == "gif" then MaxAnimatedArea else MaxImageArea
        if area > maxArea then
          Except.error (ValErr.tooBigArea area maxArea)
        else
          let metadata := extractMetadata p format
          let metadata :=
            if metadataJSONLen metadata > MaxMetadataSizeBytes then
              [("format", MetaVal.str format),
               ("width", MetaVal.int width),
               ("height", MetaVal.int height),
               ("size", MetaVal.int p.length)]
            else metadata
          Except.ok
            { isValid := true, format := format, width := width,
              height := height, size := p.length, metadata := metadata }

/-- Whether a validation outcome is a `TooBig` failure. -/
def validateFailsTooBig (r : Except ValErr VResult) : Bool :=
  match r with
  | Except.error e => e.isTooBig
  | Except.ok _ => false

/-! ## The Cloudflare upload client (internal/cloudflare/uploader.go)

The multipart body assembly is modelled by the fields the request carries:
the generated filename and the optional filtered-metadata form field.  The
network round trip (send, read, JSON-parse) is an oracle: `none` stands for
any transport or parse failure, `some r` for a parsed `UploadResponse`. -/

/-- Allow-list of metadata fields the upload client forwards
(internal/cloudflare/uploader.go filterMetadata). -/
def allowedMetadataKeys : List String :=
  ["width", "height", "format", "file_size", "camera_make", "camera_model"]

/-- filterMetadata (uploader.go): keeps only allow-listed fields. -/
def filterMetadata (m : List (String × MetaVal)) : List (String × MetaVal) :=
  m.filter (fun kv => allowedMetadataKeys.contains kv.1)

structure UploadResponse where
  success : Bool
  id : String
  variants : List String
  errorMsgs : List String
  deriving DecidableEq, Repr

inductive UploadErr where
  | transport
  | apiErrors (msgs : List String)
  deriving DecidableEq, Repr

inductive CFErr where
  | invalidResponse
  | noVariants
  deriving DecidableEq, Repr

/-- Lower-case hex digit, as `encoding/hex` uses. -/
def hexChar (n : Nat) : Char :=
  if n < 10 then Char.ofNat (48 + n) else Char.ofNat (87 + n)

def hexEncodeByte (b : Nat) : List Char :=
  [hexChar (b % 256 / 16), hexChar (b % 16)]

/-- hex.EncodeToString on a byte slice (bytes as naturals below 256; the
modelling `% 256` makes the function total on Nat). -/
def hexEncodeToString (bs : List Nat) : String :=
  String.mk (bs.map hexEncodeByte).flatten

def hexDigitChars : List Char := "0123456789abcdef".data

/-- generateFilename (uploader.go): `fmt.Sprintf("%d_%d_%s.jpg", userID,
timestamp, randomStr)` where `randomStr` hex-encodes 4 random bytes; the
clock and the random source are oracle inputs. -/
def generateFilename (userID : Int) (timestamp : Int)
    (randomBytes : List Nat) : String :=
  toString userID ++ "_" ++ toString timestamp ++ "_" ++
    hexEncodeToString randomBytes ++ ".jpg"

/-- The optional `metadata` form field of the multipart body: attached only
when the allow-list filter leaves at least one field and the serialized
form stays below 1 KiB. -/
def buildMetadataField (metadata : List (String × MetaVal)) :
    Option (List (String × MetaVal)) :=
  let filtered := filterMetadata metadata
  if filtered.length > 0 ∧ metadataJSONLen filtered < MaxMetadataSizeBytes
  then some filtered
  else none

structure UploadRequest where
  filename : String
  metadataField : Option (List (String × MetaVal))
  deriving DecidableEq, Repr

/-- Client.Upload (uploader.go): build the multipart request, perform the
network call, parse the response, and fail with the collected API error
messages when `success` is false. -/
def UploadCF (netResp : Option UploadResponse) (timestamp : Int)
    (randomBytes : List Nat) (userID : Int)
    (metadata : List (String × MetaVal)) :
    UploadRequest × Except UploadErr UploadResponse :=
  let req : UploadRequest :=
    ⟨generateFilename userID timestamp randomBytes,
     buildMetadataField metadata⟩
  match netResp with
  | none => (req, Except.error UploadErr.transport)
  | some r =>
    if r.success then (req, Except.ok r)
    else (req, Except.error (UploadErr.apiErrors r.errorMsgs))

/-- GetImageURL (uploader.go): first variant URL of a successful response;
`invalidResponse` on a nil or unsuccessful response, `noVariants` when the
variant list is empty. -/
def GetImageURL (resp : Option UploadResponse) : Except CFErr String :=
  match resp with
  | none => Except.error CFErr.invalidResponse
  | some r =>
    if ¬ r.success then Except.error CFErr.invalidResponse
    else
      match r.variants with
      | [] => Except.error CFErr.noVariants
      | u :: _ => Except.ok u

/-! ## The upload orchestration and the bot handlers (internal/bot/bot.go)

`processImageUpload` drives download → validate → upload → URL extraction.
The Telegram file-retrieval primitives are oracles in the pipeline
environment: `fileInfo` is `Bot.FileByID` (file id → file path, or an
error), `fetch` is the HTTP byte download of the resolved path.  Each run
returns the outcome together with the trace of external calls made, so the
theorems can state that a given step was never attempted. -/

inductive FetchResult where
  | getErr
  | readErr
  | ok (bytes : Payload)
  deriving DecidableEq, Repr

structure PipeEnv where
  fileInfo : String → Option String
  fetch : String → FetchResult
  netResp : Option UploadResponse
  timestamp : Int
  randomBytes : List Nat

inductive Ev where
  | fileInfoReq (fileID : String)
  | httpGet (path : String)
  | validateCall
  | uploadCall (req : UploadRequest)
  deriving DecidableEq, Repr

inductive PipelineOutcome where
  | infoFailed
  | downloadFailed
  | readFailed
  | validateFailed (e : ValErr)
  | uploadFailed (e : UploadErr)
  | getURLFailed (e : CFErr)
  | success (url : String)
  deriving DecidableEq, Repr

def PipelineOutcome.isSuccess : PipelineOutcome → Bool
  | .success _ => true
  | _ => false

def processImageUpload (env : PipeEnv) (userID : Int) (fileID : String) :
    PipelineOutcome × List Ev :=
  match env.fileInfo fileID with
  | none => (PipelineOutcome.infoFailed, [Ev.fileInfoReq fileID])
  | some path =>
    match env.fetch path with
    | FetchResult.getErr =>
      (PipelineOutcome.downloadFailed, [Ev.fileInfoReq fileID, Ev.httpGet path])
    | FetchResult.readErr =>
      (PipelineOutcome.readFailed, [Ev.fileInfoReq fileID, Ev.httpGet path])
    | FetchResult.ok bytes =>
      match Validate bytes with
      | Except.error e =>
        (PipelineOutcome.validateFailed e,
         [Ev.fileInfoReq fileID, Ev.httpGet path, Ev.validateCall])
      | Except.ok vr =>
        let up := UploadCF env.netResp env.timestamp env.randomBytes
          userID vr.metadata
        match up.2 with
        | Except.error e =>
          (PipelineOutcome.uploadFailed e,
           [Ev.fileInfoReq fileID, Ev.httpGet path, Ev.validateCall,
            Ev.uploadCall up.1])
        | Except.ok resp =>
          match GetImageURL (some resp) with
          | Except.error e =>
            (PipelineOutcome.getURLFailed e,
             [Ev.fileInfoReq fileID, Ev.httpGet path, Ev.validateCall,
              Ev.uploadCall up.1])
          | Except.ok url =>
            (PipelineOutcome.success url,
             [Ev.fileInfoReq fileID, Ev.httpGet path, Ev.validateCall,
              Ev.uploadCall up.1])

/-- handlePhoto (bot.go): authorization gate, then stash the photo's file
id for later confirmation and send the confirm/cancel prompt. -/
inductive PhotoOutcome where
  | denied
  | noPhoto
  | prompted
  deriving DecidableEq, Repr

def handlePhoto (cfg : Config) (pending : Pending) (userID : Int)
    (photo : Option String) : Pending × PhotoOutcome :=
  if ¬ IsAuthorized cfg userID then (pending, PhotoOutcome.denied)
  else
    match photo with
    | none => (pending, PhotoOutcome.noPhoto)
    | some fileID => (mapSet pending userID fileID, PhotoOutcome.prompted)

def photoResponse : PhotoOutcome → String
  | PhotoOutcome.denied => "抱歉，您没有使用此机器人的权限。"
  | PhotoOutcome.noPhoto => "未检测到图片"
  | PhotoOutcome.prompted => "您发送的是压缩图片，可能会损失质量。确定要上传吗？"

/-- handleDocument (bot.go): authorization gate, document presence, MIME
prefix check, then the pipeline.  It never touches the pending store. -/
inductive DocOutcome where
  | denied
  | noDoc
  | unsupportedType
  | piped (o : PipelineOutcome)
  deriving DecidableEq, Repr

def handleDocument (env : PipeEnv) (cfg : Config) (userID : Int)
    (doc : Option (String × String)) : DocOutcome × List Ev :=
  if ¬ IsAuthorized cfg userID then (DocOutcome.denied, [])
  else
    match doc with
    | none => (DocOutcome.noDoc, [])
    | some (fileID, mime) =>
      if ¬ "image/".isPrefixOf mime then (DocOutcome.unsupportedType, [])
      else
        let r := processImageUpload env userID fileID
        (DocOutcome.piped r.1, r.2)

def docDeniedResponse : String := "抱歉，您没有使用此机器人的权限。"

/-- strings.TrimSpace, modelled structurally on the character list so the
kernel can evaluate it. -/
def trimSpace (s : String) : String :=
  String.mk
    (((s.data.dropWhile Char.isWhitespace).reverse.dropWhile
      Char.isWhitespace).reverse)

/-- handleCallback (bot.go): trim the callback data; on confirm_upload look
up the caller's pending entry (error message if absent), delete it, then
run the pipeline; on cancel_upload just delete the entry. -/
inductive CbOutcome where
  | noPending
  | piped (o : PipelineOutcome)
  | cancelled
  | unknown
  deriving DecidableEq, Repr

def handleCallback (env : PipeEnv) (pending : Pending) (userID : Int)
    (data : String) : Pending × CbOutcome × List Ev :=
  let d := trimSpace data
  if d == "confirm_upload" then
    match mapGet pending userID with
    | none => (pending, CbOutcome.noPending, [])
    | some fileID =>
      let pending' := mapDel pending userID
      let r := processImageUpload env userID fileID
      (pending', CbOutcome.piped r.1, r.2)
  else if d == "cancel_upload" then
    (mapDel pending userID, CbOutcome.cancelled, [])
  else (pending, CbOutcome.unknown, [])

def noPendingResponse : String := "错误：未找到待处理的图片，请重新发送。"

/-! ## Helper lemmas -/

theorem mapGet_mapSet_self (m : Pending) (k : Int) (v : String) :
    mapGet (mapSet m k v) k = some v := by
  induction m with
  | nil => simp [mapSet, mapGet]
  | cons hd tl ih =>
    obtain ⟨k', v'⟩ := hd
    by_cases h : k' = k
    · simp [mapSet, mapGet, h]
    · simp [mapSet, mapGet, h, ih]

theorem mapGet_mapDel_self (m : Pending) (k : Int) :
    mapGet (mapDel m k) k = none := by
  induction m with
  | nil => simp [mapDel, mapGet]
  | cons hd tl ih =>
    obtain ⟨k', v'⟩ := hd
    by_cases h : k' = k
    · simp [mapDel, h, ih]
    · simp [mapDel, mapGet, h, ih]

theorem confirm_upload_trim :
    trimSpace "confirm_upload" = "confirm_upload" := by
  decide

theorem optField_keys (k : String) (v : Option String) :
    ∀ x ∈ (optField k v).map Prod.fst, x = k := by
  cases v <;> simp [optField]

theorem extractMetadata_keys_subset (p : Payload) (format : String) :
    ∀ k ∈ (extractMetadata p format).map Prod.fst,
      k ∈ ["format", "camera_make", "camera_model", "date_time"] := by
  intro k hk
  unfold extractMetadata at hk
  by_cases hf : (format == "jpeg") = true
  · rw [if_pos hf] at hk
    cases he : p.exifData with
    | none => rw [he] at hk; simp at hk; simp [hk]
    | some e =>
      rw [he] at hk
      simp only [List.map_append, List.mem_append] at hk
      rcases hk with ((hk | hk) | hk) | hk
      · simp at hk; simp [hk]
      · have := optField_keys "camera_make" e.cameraMake k hk
        simp [this]
      · have := optField_keys "camera_model" e.cameraModel k hk
        simp [this]
      · have := optField_keys "date_time" e.dateTime k hk
        simp [this]
  · rw [if_neg hf] at hk
    simp at hk
    simp [hk]

theorem extractMetadata_keys_nonjpeg (p : Payload) (format : String)
    (h : (format == "jpeg") = false) :
    (extractMetadata p format).map Prod.fst = ["format"] := by
  simp only [extractMetadata]
  rw [if_neg (by simp [h])]
  simp

theorem filterMetadata_keys_mem (m : List (String × MetaVal)) :
    ∀ k ∈ (filterMetadata m).map Prod.fst,
      k ∈ m.map Prod.fst ∧ k ∈ allowedMetadataKeys := by
  intro k hk
  rcases List.mem_map.mp hk with ⟨kv, hkv, rfl⟩
  rcases List.mem_filter.mp hkv with ⟨hm, hp⟩
  exact ⟨List.mem_map_of_mem _ hm, by simpa using hp⟩

/-- Inversion of a successful validation: the container decoded, the
result's format is the decoded format, and the metadata is the extracted
mapping unless the 1 KiB guard replaced it with the minimal fallback. -/
theorem Validate_ok_inversion (p : Payload) (r : VResult)
    (hok : Validate p = Except.ok r) :
    ∃ f w h, p.decoded = some (f, w, h) ∧
      r.format = f ∧
      r.metadata =
        (if metadataJSONLen (extractMetadata p f) > MaxMetadataSizeBytes then
          [("format", MetaVal.str f), ("width", MetaVal.int w),
           ("height", MetaVal.int h), ("size", MetaVal.int p.length)]
        else extractMetadata p f) := by
  unfold Validate at hok
  split at hok
  · exact absurd hok (by simp)
  · split at hok
    · exact absurd hok (by simp)
    · rename_i fmt wdt hgt heq
      split at hok
      · exact absurd hok (by simp)
      · simp only [] at hok
        by_cases harea : wdt * hgt >
            (if (fmt == "gif") = true then MaxAnimatedArea else MaxImageArea)
        · rw [if_pos harea] at hok
          exact absurd hok (by simp)
        · rw [if_neg harea] at hok
          rcases Except.ok.inj hok with rfl
          exact ⟨fmt, wdt, hgt, heq, rfl, rfl⟩

theorem hexChar_mem (n : Nat) (h : n < 16) : hexChar n ∈ hexDigitChars := by
  interval_cases n <;> decide

theorem hexEncodeByte_chars (b : Nat) :
    ∀ c ∈ hexEncodeByte b, c ∈ hexDigitChars := by
  intro c hc
  simp only [hexEncodeByte, List.mem_cons, List.not_mem_nil, or_false] at hc
  rcases hc with rfl | rfl
  · exact hexChar_mem _ (by omega)
  · exact hexChar_mem _ (Nat.mod_lt _ (by norm_num))

theorem hexJoin_length (bs : List Nat) :
    ((bs.map hexEncodeByte).flatten).length = 2 * bs.length := by
  induction bs with
  | nil => rfl
  | cons b t ih =>
    have hc : ((b :: t).map hexEncodeByte).flatten =
        hexEncodeByte b ++ (t.map hexEncodeByte).flatten := rfl
    rw [hc, List.length_append, ih]
    show 2 + 2 * t.length = 2 * (t.length + 1)
    omega

theorem hexEncodeToString_length (bs : List Nat) :
    (hexEncodeToString bs).length = 2 * bs.length :=
  hexJoin_length bs

theorem hexEncodeToString_chars (bs : List Nat) :
    ∀ c ∈ (hexEncodeToString bs).data, c ∈ hexDigitChars := by
  intro c hc
  have hm : c ∈ (bs.map hexEncodeByte).flatten := hc
  rcases List.mem_flatten.mp hm with ⟨l, hl, hcl⟩
  rcases List.mem_map.mp hl with ⟨b, _, rfl⟩
  exact hexEncodeByte_chars b c hcl

/-! ## Claim C1 -/

/-- Claim C1, counterexample.  The claim states that when persistence fails
the roster operation returns an error and the in-memory roster is unchanged
from its value before the call.  Concretely, with roster
`{admin := 1, users := []}` and a failing save, `AddAuthorizedUser 2` does
return an error, but the in-memory roster now contains user 2: the
membership change is committed in memory and not rolled back. -/
theorem C1_counterexample :
    (AddAuthorizedUser false ⟨1, []⟩ 2).2.isSome = true ∧
    (AddAuthorizedUser false ⟨1, []⟩ 2).1.authorizedUsers ≠
      (⟨1, []⟩ : Config).authorizedUsers := by
  decide

/-- Claim C1, amended.  For every roster mutation whose membership change
applies (an add of a not-yet-authorized user, or a removal of a present
non-admin user), if the synchronous persistence step fails, the operation
returns an error, but the in-memory roster RETAINS the membership change:
the mutation is applied in memory before `Save` is called and is not rolled
back when `Save` fails. -/
theorem C1_persistence_failure_keeps_mutation (c : Config) (userID : Int)
    (l : List Int) :
    (IsAuthorized c userID = false →
      (AddAuthorizedUser false c userID).2.isSome = true ∧
      (AddAuthorizedUser false c userID).1.authorizedUsers =
        c.authorizedUsers ++ [userID]) ∧
    ((userID == c.adminID) = false →
      removeFirst c.authorizedUsers userID = some l →
      (RemoveAuthorizedUser false c userID).2.isSome = true ∧
      (RemoveAuthorizedUser false c userID).1.authorizedUsers = l) := by
  constructor
  · intro h
    simp [AddAuthorizedUser, h, configSave]
  · intro hadmin hrem
    simp [RemoveAuthorizedUser, hadmin, hrem, configSave]

/-- Claim C1, witness for the amended theorem at a concrete roster: admin 1,
authorized list `[5, 2, 7]`, failing save; adding user 3 and removing
user 2 both error while leaving the mutation committed in memory. -/
theorem C1_persistence_failure_keeps_mutation_witness :
    IsAuthorized ⟨1, [5, 2, 7]⟩ 3 = false ∧
    (AddAuthorizedUser false ⟨1, [5, 2, 7]⟩ 3).2.isSome = true ∧
    (AddAuthorizedUser false ⟨1, [5, 2, 7]⟩ 3).1.authorizedUsers =
      [5, 2, 7] ++ [3] ∧
    (RemoveAuthorizedUser false ⟨1, [5, 2, 7]⟩ 2).2.isSome = true ∧
    (RemoveAuthorizedUser false ⟨1, [5, 2, 7]⟩ 2).1.authorizedUsers =
      [5, 7] :=
  ⟨by decide,
   ((C1_persistence_failure_keeps_mutation ⟨1, [5, 2, 7]⟩ 3 [5, 7]).1
     (by decide)).1,
   ((C1_persistence_failure_keeps_mutation ⟨1, [5, 2, 7]⟩ 3 [5, 7]).1
     (by decide)).2,
   ((C1_persistence_failure_keeps_mutation ⟨1, [5, 2, 7]⟩ 2 [5, 7]).2
     (by decide) (by decide)).1,
   ((C1_persistence_failure_keeps_mutation ⟨1, [5, 2, 7]⟩ 2 [5, 7]).2
     (by decide) (by decide)).2⟩

/-! ## Claim C2 -/

/-- Claim C2: for every inbound photo or document whose caller fails the
authorization check, the handler produces the authorization-denied
response and nothing else: the pending store is untouched, and the trace
of external calls is empty — no file-info request, no download, no
validator call, no upload-client call. -/
theorem C2_unauthorized_short_circuit (env : PipeEnv) (cfg : Config)
    (pending : Pending) (userID : Int) (photo : Option String)
    (doc : Option (String × String))
    (h : IsAuthorized cfg userID = false) :
    handlePhoto cfg pending userID photo = (pending, PhotoOutcome.denied) ∧
    photoResponse PhotoOutcome.denied = "抱歉，您没有使用此机器人的权限。" ∧
    handleDocument env cfg userID doc = (DocOutcome.denied, []) ∧
    docDeniedResponse = "抱歉，您没有使用此机器人的权限。" := by
  refine ⟨?_, rfl, ?_, rfl⟩
  · simp [handlePhoto, h]
  · simp [handleDocument, h]

/-- Claim C2, witness: user 99 is not authorized under roster
`{admin := 1, users := [5]}`; both handlers deny with an empty trace. -/
theorem C2_unauthorized_short_circuit_witness :
    IsAuthorized ⟨1, [5]⟩ 99 = false ∧
    handlePhoto ⟨1, [5]⟩ [] 99 (some "photo1") =
      ([], PhotoOutcome.denied) ∧
    handleDocument ⟨fun _ => none, fun _ => FetchResult.getErr, none, 0, []⟩
      ⟨1, [5]⟩ 99 (some ("doc1", "image/png")) = (DocOutcome.denied, []) :=
  ⟨by decide,
   (C2_unauthorized_short_circuit
     ⟨fun _ => none, fun _ => FetchResult.getErr, none, 0, []⟩
     ⟨1, [5]⟩ [] 99 (some "photo1") (some ("doc1", "image/png"))
     (by decide)).1,
   (C2_unauthorized_short_circuit
     ⟨fun _ => none, fun _ => FetchResult.getErr, none, 0, []⟩
     ⟨1, [5]⟩ [] 99 (some "photo1") (some ("doc1", "image/png"))
     (by decide)).2.2.1⟩

/-! ## Claim C3 -/

/-- Claim C3: for every payload of more than 10 MiB, `Validate` fails with
the `TooLarge` error; and the byte-length check runs before any decode
attempt — the result is identical for any two payloads of that length
whatever their container decode or EXIF outcomes, so no parsing of the
bytes can influence (or be required for) it. -/
theorem C3_too_large_before_decode (p q : Payload)
    (hlen : p.length = q.length) (h : p.length > MaxFileSizeBytes) :
    Validate p = Except.error (ValErr.tooLarge p.length MaxFileSizeBytes) ∧
    Validate p = Validate q := by
  have hq : q.length > MaxFileSizeBytes := hlen ▸ h
  constructor
  · simp [Validate, h]
  · simp [Validate, h, hq, hlen]

/-- Claim C3, witness: a payload of 10 MiB + 1 bytes whose decode would
succeed and one whose decode would fail validate identically, with the
`TooLarge` error. -/
theorem C3_too_large_before_decode_witness :
    (10485761 : Nat) > MaxFileSizeBytes ∧
    Validate ⟨10485761, some ("png", 4, 4), none⟩ =
      Except.error (ValErr.tooLarge 10485761 MaxFileSizeBytes) ∧
    Validate ⟨10485761, some ("png", 4, 4), none⟩ =
      Validate ⟨10485761, none, none⟩ :=
  ⟨by decide,
   (C3_too_large_before_decode ⟨10485761, some ("png", 4, 4), none⟩
     ⟨10485761, none, none⟩ rfl (by decide)).1,
   (C3_too_large_before_decode ⟨10485761, some ("png", 4, 4), none⟩
     ⟨10485761, none, none⟩ rfl (by decide)).2⟩

/-! ## Claim C4 -/

/-- Claim C4, counterexample.  The claim says any payload whose area
exceeds the format ceiling fails with `TooBig` "regardless of byte size".
Concretely, a payload of 10 MiB + 1 bytes decoding to an 11000×11000 PNG
(area 121,000,000 > 100,000,000) fails with `TooLarge`, not `TooBig`: the
byte-size gate preempts the area gate. -/
theorem C4_counterexample :
    (11000 : Nat) * 11000 > MaxImageArea ∧
    Validate ⟨10485761, some ("png", 11000, 11000), none⟩ =
      Except.error (ValErr.tooLarge 10485761 MaxFileSizeBytes) ∧
    validateFailsTooBig
      (Validate ⟨10485761, some ("png", 11000, 11000), none⟩) = false :=
  ⟨by decide, rfl, rfl⟩

/-- Claim C4, amended.  For every payload within the 10 MiB byte-size limit
whose container decodes and whose `width*height` exceeds the
format-appropriate ceiling (100,000,000 static, 50,000,000 for GIF),
`Validate` fails with a `TooBig` error (payloads over the byte limit fail
with `TooLarge` first instead). -/
theorem C4_area_exceeded_toobig (p : Payload) (format : String)
    (width height : Nat) (hlen : ¬ p.length > MaxFileSizeBytes)
    (hdec : p.decoded = some (format, width, height))
    (harea : width * height >
      (if format = "gif" then MaxAnimatedArea else MaxImageArea)) :
    ∃ e, Validate p = Except.error e ∧ e.isTooBig = true := by
  by_cases hdim : width > MaxImageDimension || height > MaxImageDimension
  · exact ⟨ValErr.tooBigDimension width height,
      by simp [Validate, hlen, hdec, hdim], rfl⟩
  · exact ⟨ValErr.tooBigArea (width * height)
      (if format = "gif" then MaxAnimatedArea else MaxImageArea),
      by simp [Validate, hlen, hdec, hdim, harea], rfl⟩

/-- Claim C4, witness: a 100-byte payload decoding to an 11000×11000 PNG
fails with a `TooBig` error. -/
theorem C4_area_exceeded_toobig_witness :
    ¬ (100 : Nat) > MaxFileSizeBytes ∧
    (11000 : Nat) * 11000 >
      (if ("png" : String) = "gif" then MaxAnimatedArea else MaxImageArea) ∧
    ∃ e, Validate ⟨100, some ("png", 11000, 11000), none⟩ =
      Except.error e ∧ e.isTooBig = true :=
  ⟨by decide, by decide,
   C4_area_exceeded_toobig ⟨100, some ("png", 11000, 11000), none⟩
     "png" 11000 11000 (by decide) rfl (by decide)⟩

/-! ## Claim C5 -/

/-- Claim C5: the pending store is last-write-wins per caller — after
`Stash(u, a); Stash(u, b)` a lookup yields `b`; the confirm callback
consumes exactly `b`, removes the entry, and a second confirm finds no
pending entry, answers with the no-pending-upload message and performs no
pipeline step (empty trace). -/
theorem C5_last_write_wins_and_take (env : PipeEnv) (pending : Pending)
    (u : Int) (a b : String) :
    mapGet (mapSet (mapSet pending u a) u b) u = some b ∧
    handleCallback env (mapSet (mapSet pending u a) u b) u "confirm_upload" =
      (mapDel (mapSet (mapSet pending u a) u b) u,
       CbOutcome.piped (processImageUpload env u b).1,
       (processImageUpload env u b).2) ∧
    mapGet (mapDel (mapSet (mapSet pending u a) u b) u) u = none ∧
    handleCallback env (mapDel (mapSet (mapSet pending u a) u b) u) u
      "confirm_upload" =
      (mapDel (mapSet (mapSet pending u a) u b) u, CbOutcome.noPending, []) ∧
    noPendingResponse = "错误：未找到待处理的图片，请重新发送。" := by
  have h1 : mapGet (mapSet (mapSet pending u a) u b) u = some b :=
    mapGet_mapSet_self _ _ _
  have h2 : mapGet (mapDel (mapSet (mapSet pending u a) u b) u) u = none :=
    mapGet_mapDel_self _ _
  refine ⟨h1, ?_, h2, ?_, rfl⟩
  · simp [handleCallback, confirm_upload_trim, h1]
  · simp [handleCallback, confirm_upload_trim, h2]

/-! ## Claim C6 -/

/-- Claim C6, counterexample.  The claim states `AddAuthorized(id)` fails
exactly when `id` already passed `IsAuthorized`, and succeeds otherwise.
Concretely, with roster `{admin := 1, users := []}` and a failing
persistence step, user 2 does NOT pass `IsAuthorized`, yet
`AddAuthorizedUser 2` returns an error (the save error), refuting
"succeeds otherwise". -/
theorem C6_counterexample :
    IsAuthorized ⟨1, []⟩ 2 = false ∧
    (AddAuthorizedUser false ⟨1, []⟩ 2).2.isSome = true := by
  decide

/-- Claim C6, amended.  `AddAuthorized(adminID)` always fails with
`AlreadyAuthorized` (the admin is implicitly authorized).  In general
`AddAuthorized(id)` fails with `AlreadyAuthorized` exactly when `id` already
passed `IsAuthorized` before the call; when it did not, the call succeeds
provided the persistence step succeeds (a persistence failure is reported
as a save error, not as `AlreadyAuthorized`). -/
theorem C6_add_authorized (saveOk : Bool) (c : Config) (userID : Int) :
    ((AddAuthorizedUser saveOk c c.adminID).2.map AppError.errType =
      some ErrType.userAlreadyExists) ∧
    (((AddAuthorizedUser saveOk c userID).2.map AppError.errType =
      some ErrType.userAlreadyExists) ↔ IsAuthorized c userID = true) ∧
    (IsAuthorized c userID = false →
      (AddAuthorizedUser true c userID).2 = none) := by
  refine ⟨?_, ⟨?_, ?_⟩, ?_⟩
  · have hadm : IsAuthorized c c.adminID = true := by
      simp [IsAuthorized]
    simp [AddAuthorizedUser, hadm]
  · intro h
    by_cases ha : IsAuthorized c userID = true
    · exact ha
    · exfalso
      rw [Bool.not_eq_true] at ha
      simp [AddAuthorizedUser, ha] at h
      cases saveOk <;> simp [configSave] at h
  · intro h
    simp [AddAuthorizedUser, h]
  · intro h
    simp [AddAuthorizedUser, h, configSave]

/-- Claim C6, witness: with roster `{admin := 1, users := [5]}`, adding the
admin fails with `AlreadyAuthorized`; adding the already-listed user 5
fails with `AlreadyAuthorized`; and adding the fresh user 9 with a
succeeding save returns no error. -/
theorem C6_add_authorized_witness :
    ((AddAuthorizedUser true ⟨1, [5]⟩ (⟨1, [5]⟩ : Config).adminID).2.map
      AppError.errType = some ErrType.userAlreadyExists) ∧
    IsAuthorized ⟨1, [5]⟩ 5 = true ∧
    ((AddAuthorizedUser true ⟨1, [5]⟩ 5).2.map AppError.errType =
      some ErrType.userAlreadyExists) ∧
    IsAuthorized ⟨1, [5]⟩ 9 = false ∧
    (AddAuthorizedUser true ⟨1, [5]⟩ 9).2 = none :=
  ⟨(C6_add_authorized true ⟨1, [5]⟩ 9).1,
   by decide,
   (C6_add_authorized true ⟨1, [5]⟩ 5).2.1.mpr (by decide),
   by decide,
   (C6_add_authorized true ⟨1, [5]⟩ 9).2.2 (by decide)⟩

/-! ## Claim C7 -/

/-- Claim C7: for every upload response reporting success, `GetImageURL`
returns the first entry of the variant-URL list when it is non-empty and
fails with the no-variants error when it is empty; in the pipeline this
failure surfaces to the caller as a failure outcome of the upload phase
(the run is not a success and carries the `noVariants` error), not as a
separate success-like terminal state. -/
theorem C7_first_variant_or_novariants (r : UploadResponse) (env : PipeEnv)
    (userID : Int) (fileID path : String) (bytes : Payload) (vr : VResult)
    (hs : r.success = true) :
    (r.variants = [] → GetImageURL (some r) = Except.error CFErr.noVariants) ∧
    (∀ u rest, r.variants = u :: rest → GetImageURL (some r) = Except.ok u) ∧
    (env.fileInfo fileID = some path → env.fetch path = FetchResult.ok bytes →
     Validate bytes = Except.ok vr → env.netResp = some r → r.variants = [] →
     (processImageUpload env userID fileID).1 =
       PipelineOutcome.getURLFailed CFErr.noVariants ∧
     ((processImageUpload env userID fileID).1).isSuccess = false) := by
  refine ⟨?_, ?_, ?_⟩
  · intro hv
    simp [GetImageURL, hs, hv]
  · intro u rest hv
    simp [GetImageURL, hs, hv]
  · intro h1 h2 h3 h4 hv
    have hout : (processImageUpload env userID fileID).1 =
        PipelineOutcome.getURLFailed CFErr.noVariants := by
      simp [processImageUpload, h1, h2, h3, h4, UploadCF, hs,
        GetImageURL, hv]
    exact ⟨hout, by rw [hout]; rfl⟩

/-- Claim C7, witness: a successful response with variants
`["u1", "u2"]` yields canonical URL "u1"; a successful response with an
empty variant list makes the whole pipeline end in the no-variants failure
outcome. -/
theorem C7_first_variant_or_novariants_witness :
    GetImageURL (some ⟨true, "img2", ["u1", "u2"], []⟩) = Except.ok "u1" ∧
    GetImageURL (some ⟨true, "img1", [], []⟩) =
      Except.error CFErr.noVariants ∧
    (processImageUpload
      ⟨fun _ => some "p",
       fun _ => FetchResult.ok ⟨50, some ("png", 3, 3), none⟩,
       some ⟨true, "img1", [], []⟩, 0, []⟩ 7 "f").1 =
      PipelineOutcome.getURLFailed CFErr.noVariants ∧
    ((processImageUpload
      ⟨fun _ => some "p",
       fun _ => FetchResult.ok ⟨50, some ("png", 3, 3), none⟩,
       some ⟨true, "img1", [], []⟩, 0, []⟩ 7 "f").1).isSuccess = false :=
  ⟨(C7_first_variant_or_novariants ⟨true, "img2", ["u1", "u2"], []⟩
      ⟨fun _ => some "p",
       fun _ => FetchResult.ok ⟨50, some ("png", 3, 3), none⟩,
       some ⟨true, "img1", [], []⟩, 0, []⟩ 7 "f" "p"
      ⟨50, some ("png", 3, 3), none⟩
      ⟨true, "png", 3, 3, 50, [("format", MetaVal.str "png")]⟩
      rfl).2.1 "u1" ["u2"] rfl,
   (C7_first_variant_or_novariants ⟨true, "img1", [], []⟩
      ⟨fun _ => some "p",
       fun _ => FetchResult.ok ⟨50, some ("png", 3, 3), none⟩,
       some ⟨true, "img1", [], []⟩, 0, []⟩ 7 "f" "p"
      ⟨50, some ("png", 3, 3), none⟩
      ⟨true, "png", 3, 3, 50, [("format", MetaVal.str "png")]⟩
      rfl).1 rfl,
   ((C7_first_variant_or_novariants ⟨true, "img1", [], []⟩
      ⟨fun _ => some "p",
       fun _ => FetchResult.ok ⟨50, some ("png", 3, 3), none⟩,
       some ⟨true, "img1", [], []⟩, 0, []⟩ 7 "f" "p"
      ⟨50, some ("png", 3, 3), none⟩
      ⟨true, "png", 3, 3, 50, [("format", MetaVal.str "png")]⟩
      rfl).2.2 rfl rfl rfl rfl rfl).1,
   ((C7_first_variant_or_novariants ⟨true, "img1", [], []⟩
      ⟨fun _ => some "p",
       fun _ => FetchResult.ok ⟨50, some ("png", 3, 3), none⟩,
       some ⟨true, "img1", [], []⟩, 0, []⟩ 7 "f" "p"
      ⟨50, some ("png", 3, 3), none⟩
      ⟨true, "png", 3, 3, 50, [("format", MetaVal.str "png")]⟩
      rfl).2.2 rfl rfl rfl rfl rfl).2⟩

/-! ## Claim C8 -/

/-- Claim C8, counterexample.  The claim says the filename is exactly
`{callerID}_{unixTimestamp}_{randomHex}` "with nothing else appended"; the
source template is `"%d_%d_%s.jpg"`, so a fixed `.jpg` extension IS
appended: for caller 5, timestamp 100 and random bytes de ad be ef the
generated name is "5_100_deadbeef.jpg", not "5_100_deadbeef". -/
theorem C8_counterexample :
    generateFilename 5 100 [222, 173, 190, 239] = "5_100_deadbeef.jpg" ∧
    generateFilename 5 100 [222, 173, 190, 239] ≠ "5_100_deadbeef" := by
  constructor
  · rfl
  · decide

/-- Claim C8, amended.  The filename sent to the remote upload client is
exactly `{callerID}_{unixTimestamp}_{randomHex}.jpg`: the caller's numeric
ID, the unix timestamp, and the hex encoding of the 4 random bytes (8
lower-case hex characters), followed by the fixed `.jpg` extension the
source template appends. -/
theorem C8_upload_filename (netResp : Option UploadResponse)
    (ts userID : Int) (rb : List Nat)
    (metadata : List (String × MetaVal)) (hlen : rb.length = 4) :
    (UploadCF netResp ts rb userID metadata).1.filename =
      toString userID ++ "_" ++ toString ts ++ "_" ++
        hexEncodeToString rb ++ ".jpg" ∧
    (hexEncodeToString rb).length = 8 ∧
    (∀ c ∈ (hexEncodeToString rb).data, c ∈ hexDigitChars) := by
  refine ⟨?_, ?_, hexEncodeToString_chars rb⟩
  · cases netResp with
    | none => rfl
    | some r =>
      by_cases hr : r.success = true
      · simp [UploadCF, hr, generateFilename]
      · simp [UploadCF, hr, generateFilename]
  · rw [hexEncodeToString_length, hlen]

/-- Claim C8, witness: concrete upload request for caller 5 at timestamp
100 with random bytes de ad be ef. -/
theorem C8_upload_filename_witness :
    ([222, 173, 190, 239] : List Nat).length = 4 ∧
    (UploadCF none 100 [222, 173, 190, 239] 5 []).1.filename =
      toString (5 : Int) ++ "_" ++ toString (100 : Int) ++ "_" ++
        hexEncodeToString [222, 173, 190, 239] ++ ".jpg" ∧
    (hexEncodeToString [222, 173, 190, 239]).length = 8 :=
  ⟨by decide,
   (C8_upload_filename none 100 5 [222, 173, 190, 239] [] (by decide)).1,
   (C8_upload_filename none 100 5 [222, 173, 190, 239] [] (by decide)).2.1⟩

/-! ## Claim C9 -/

/-- Claim C9: a confirm callback that finds a pending entry removes it
before the pipeline runs: for EVERY pipeline environment — including every
failing one — the resulting pending store has no entry for the caller. -/
theorem C9_confirm_removes_entry_before_pipeline (env : PipeEnv)
    (pending : Pending) (userID : Int) (fileID : String)
    (h : mapGet pending userID = some fileID) :
    handleCallback env pending userID "confirm_upload" =
      (mapDel pending userID,
       CbOutcome.piped (processImageUpload env userID fileID).1,
       (processImageUpload env userID fileID).2) ∧
    mapGet (handleCallback env pending userID "confirm_upload").1 userID =
      none := by
  have heq : handleCallback env pending userID "confirm_upload" =
      (mapDel pending userID,
       CbOutcome.piped (processImageUpload env userID fileID).1,
       (processImageUpload env userID fileID).2) := by
    simp [handleCallback, confirm_upload_trim, h]
  refine ⟨heq, ?_⟩
  rw [heq]
  exact mapGet_mapDel_self pending userID

/-- Claim C9, witness: user 7 has pending entry "f"; with an environment in
which every pipeline step fails, the confirm still leaves user 7 with no
pending entry. -/
theorem C9_confirm_removes_entry_before_pipeline_witness :
    mapGet [((7 : Int), "f")] 7 = some "f" ∧
    mapGet (handleCallback
      ⟨fun _ => none, fun _ => FetchResult.getErr, none, 0, []⟩
      [((7 : Int), "f")] 7 "confirm_upload").1 7 = none :=
  ⟨by decide,
   (C9_confirm_removes_entry_before_pipeline
     ⟨fun _ => none, fun _ => FetchResult.getErr, none, 0, []⟩
     [((7 : Int), "f")] 7 "f" (by decide)).2⟩

/-! ## Claim C10 -/

/-- Claim C10: for every successfully validated image whose assembled
metadata fits the 1 KiB budget, the result's metadata keys are a subset of
`{format, camera_make, camera_model, date_time}` (exactly `{format}` for
non-JPEG formats); composed with the upload client's allow-list filter
(`filterMetadata`), the forwarded metadata keys lie in
`{format, camera_make, camera_model}` and in particular never include the
width, height or byte-size fields. -/
theorem C10_forwarded_metadata_allowlist (p : Payload) (r : VResult)
    (hok : Validate p = Except.ok r)
    (hbudget :
      metadataJSONLen (extractMetadata p r.format) ≤ MaxMetadataSizeBytes) :
    (∀ k ∈ r.metadata.map Prod.fst,
      k ∈ ["format", "camera_make", "camera_model", "date_time"]) ∧
    ((r.format == "jpeg") = false → r.metadata.map Prod.fst = ["format"]) ∧
    (∀ k ∈ (filterMetadata r.metadata).map Prod.fst,
      k ∈ ["format", "camera_make", "camera_model"]) ∧
    (∀ k ∈ (filterMetadata r.metadata).map Prod.fst,
      k ≠ "width" ∧ k ≠ "height" ∧ k ≠ "file_size" ∧ k ≠ "size") := by
  obtain ⟨f, w, h, _, hfmt, hmeta⟩ := Validate_ok_inversion p r hok
  rw [hfmt] at hbudget ⊢
  rw [if_neg (by omega)] at hmeta
  have hsub : ∀ k ∈ r.metadata.map Prod.fst,
      k ∈ ["format", "camera_make", "camera_model", "date_time"] := by
    rw [hmeta]
    exact extractMetadata_keys_subset p f
  have hfil : ∀ k ∈ (filterMetadata r.metadata).map Prod.fst,
      k ∈ ["format", "camera_make", "camera_model"] := by
    intro k hk
    obtain ⟨hmem, hallow⟩ := filterMetadata_keys_mem r.metadata k hk
    have h4 := hsub k hmem
    simp only [List.mem_cons, List.not_mem_nil, or_false] at h4
    rcases h4 with rfl | rfl | rfl | rfl
    · simp
    · simp
    · simp
    · exact absurd hallow (by decide)
  refine ⟨hsub, ?_, hfil, ?_⟩
  · intro hnj
    rw [hmeta]
    exact extractMetadata_keys_nonjpeg p f hnj
  · intro k hk
    have h3 := hfil k hk
    simp only [List.mem_cons, List.not_mem_nil, or_false] at h3
    rcases h3 with rfl | rfl | rfl <;> refine ⟨?_, ?_, ?_, ?_⟩ <;> decide

/-- Claim C10, witness: a 50-byte PNG payload validates successfully, its
metadata fits the budget, and (by the claim theorem) its metadata keys are
exactly `["format"]`. -/
theorem C10_forwarded_metadata_allowlist_witness :
    Validate ⟨50, some ("png", 3, 3), none⟩ =
      Except.ok ⟨true, "png", 3, 3, 50, [("format", MetaVal.str "png")]⟩ ∧
    metadataJSONLen
      (extractMetadata ⟨50, some ("png", 3, 3), none⟩ "png") ≤
      MaxMetadataSizeBytes ∧
    ((⟨true, "png", 3, 3, 50, [("format", MetaVal.str "png")]⟩ :
      VResult).metadata.map Prod.fst = ["format"]) :=
  ⟨rfl, by decide,
   (C10_forwarded_metadata_allowlist ⟨50, some ("png", 3, 3), none⟩
     ⟨true, "png", 3, 3, 50, [("format", MetaVal.str "png")]⟩
     rfl (by decide)).2.1 (by decide)⟩
